import Mathlib

/-!
Verification of the distributed segmented dataset cursor of `min_pf`
(`src/peaknet/datasets/ipc_dataset_dist.py` and
`src/peaknet/datasets/dummy_dataset.py`).

The embedding models Python integers as `Int`, Python lists as `List`,
and the fallible `__getitem__` as `Except`.  The remote sample fetch
(`fetch_event`), the tensor transforms, and the socket transport are out
of scope; index resolution is modelled up to the dataset handle that the
code extracts from `full_dataset[global_idx]`.
-/

namespace MinPf

/-- Model of Python `list(range(s, e))` over machine integers: the list
`[s, s+1, ..., e-1]`, empty when `e ≤ s`. -/
def intRange (s e : Int) : List Int :=
  (List.range (e - s).toNat).map (fun i => s + Int.ofNat i)

/-- Opaque dataset handle: the `(exp, run, access_mode, detector_name,
event)` tuple stored in `full_dataset`.  The cursor never interprets the
fields, so they are modelled as plain integers. -/
structure Handle where
  exp : Int
  run : Int
  access_mode : Int
  detector_name : Int
  event : Int
deriving DecidableEq

/-- Configuration of `IPCDistributedSegmentedDataset`
(`IPCDistributedSegmentedDatasetConfig`); `transforms`, `is_perf` and
`server_address` feed only the out-of-scope fetch path and are omitted. -/
structure IPCConfig where
  full_dataset : List Handle
  micro_batch_size_per_rank : Int
  world_size : Int
deriving DecidableEq

/-- Mutable state of an `IPCDistributedSegmentedDataset` instance: the
fields its methods read and write. -/
structure IPCState where
  full_dataset : List Handle
  micro_batch_size_per_rank : Int
  world_size : Int
  total_size : Int
  start_idx : Int
  end_idx : Int
deriving DecidableEq

namespace IPC

/-- Embedding of `IPCDistributedSegmentedDataset.calculate_end_idx`:
`min(self.start_idx + self.micro_batch_size_per_rank * self.world_size,
self.total_size)`. -/
def calculate_end_idx (s : IPCState) : Int :=
  min (s.start_idx + s.micro_batch_size_per_rank * s.world_size) s.total_size

/-- Embedding of `IPCDistributedSegmentedDataset.__init__`: copies the
configuration, sets `total_size = len(full_dataset)`, `start_idx = 0`,
and `end_idx = calculate_end_idx()`.  The constructor performs no
validation of the configuration. -/
def init (cfg : IPCConfig) : IPCState :=
  let s0 : IPCState :=
    { full_dataset := cfg.full_dataset
      micro_batch_size_per_rank := cfg.micro_batch_size_per_rank
      world_size := cfg.world_size
      total_size := (cfg.full_dataset.length : Int)
      start_idx := 0
      end_idx := 0 }
  { s0 with end_idx := calculate_end_idx s0 }

/-- Embedding of `IPCDistributedSegmentedDataset.set_start_idx`: stores
the new `start_idx` and recomputes `end_idx`.  It performs no reset and
returns no signal. -/
def set_start_idx (s : IPCState) (start_idx : Int) : IPCState :=
  let s1 : IPCState := { s with start_idx := start_idx }
  { s1 with end_idx := calculate_end_idx s1 }

/-- Embedding of `IPCDistributedSegmentedDataset.__len__`:
`end_idx - start_idx`. -/
def segmentLength (s : IPCState) : Int :=
  s.end_idx - s.start_idx

end IPC

/-- Errors raised on the index-resolution path of `__getitem__`. -/
inductive PyErr where
  /-- The explicit guard `raise IndexError("Index out of range for the
  current segment")`. -/
  | segmentIndexOutOfRange : PyErr
  /-- Python's own `IndexError` from `full_dataset[global_idx]` when the
  (possibly negative) index falls outside the list. -/
  | listIndexOutOfRange : PyErr
deriving DecidableEq

/-- Decidable equality of `Except` results, for evaluating the model on
concrete inputs. -/
instance exceptDecEq {ε α : Type} [DecidableEq ε] [DecidableEq α] :
    DecidableEq (Except ε α) := fun a b =>
  match a, b with
  | .ok x, .ok y =>
    if h : x = y then .isTrue (by rw [h])
    else .isFalse (fun hc => h (Except.ok.inj hc))
  | .error x, .error y =>
    if h : x = y then .isTrue (by rw [h])
    else .isFalse (fun hc => h (Except.error.inj hc))
  | .ok _, .error _ => .isFalse (fun hc => Except.noConfusion hc)
  | .error _, .ok _ => .isFalse (fun hc => Except.noConfusion hc)

/-- Model of Python list subscription `l[i]` for an integer index:
negative indices count from the end; an index outside `[-len, len)`
raises `IndexError`. -/
def pyGet {α : Type} (l : List α) (i : Int) : Except PyErr α :=
  let j : Int := if i < 0 then (l.length : Int) + i else i
  if h : 0 ≤ j ∧ j.toNat < l.length then .ok (l.get ⟨j.toNat, h.2⟩)
  else .error PyErr.listIndexOutOfRange

namespace IPC

/-- Embedding of `IPCDistributedSegmentedDataset.__getitem__` up to the
handle lookup: the guard `idx >= end_idx - start_idx` raises the segment
`IndexError`; otherwise the handle at `full_dataset[start_idx + idx]` is
resolved with Python list-index semantics.  The subsequent remote fetch
and transforms are out-of-scope transport. -/
def getItem (s : IPCState) (idx : Int) : Except PyErr Handle :=
  if s.end_idx - s.start_idx ≤ idx then .error PyErr.segmentIndexOutOfRange
  else pyGet s.full_dataset (s.start_idx + idx)

end IPC

/-- The checkpoint record written by `save_checkpoint`:
`{'end_idx': ..., 'micro_batch_size_per_rank': ...}`. -/
structure Checkpoint where
  end_idx : Int
  micro_batch_size_per_rank : Int
deriving DecidableEq

namespace IPC

/-- Embedding of `IPCDistributedSegmentedDataset.save_checkpoint`: rank 0
persists the record `{end_idx, micro_batch_size_per_rank}`; the trailing
barrier and the file path are transport and are not modelled.  The cursor
state itself is not mutated. -/
def save_checkpoint (s : IPCState) : Checkpoint :=
  { end_idx := s.end_idx
    micro_batch_size_per_rank := s.micro_batch_size_per_rank }

/-- Embedding of `IPCDistributedSegmentedDataset.load_checkpoint_and_broadcast`:
the record read by rank 0 (or `none`) arrives identically on every rank
via `broadcast_dict`; on a truthy record the code calls
`set_start_idx(checkpoint['end_idx'])` and, when the stored
`micro_batch_size_per_rank` differs from the live one, emits a warning
(the returned `Bool`) and adopts the stored value.  No exception is
raised on that path. -/
def load_checkpoint_and_broadcast (s : IPCState) (ckpt : Option Checkpoint) :
    IPCState × Bool :=
  match ckpt with
  | none => (s, false)
  | some c =>
    let s1 := set_start_idx s c.end_idx
    if c.micro_batch_size_per_rank = s1.micro_batch_size_per_rank then (s1, false)
    else ({ s1 with micro_batch_size_per_rank := c.micro_batch_size_per_rank }, true)

/-- Reset of the cursor, mirrored from the only `reset` in the
repository (`DistributedSegmentedDummyImageData.reset`): `start_idx = 0`
and `end_idx = 0`. -/
def reset (s : IPCState) : IPCState :=
  { s with start_idx := 0, end_idx := 0 }

end IPC

/-- Configuration of `DistributedSegmentedDummyImageData`
(`DistributedSegmentedDummyImageDataConfig`). -/
structure DummyConfig where
  C : Int
  H : Int
  W : Int
  seg_size : Int
  total_size : Int
  dist_rank : Int
  dist_world_size : Int
deriving DecidableEq

/-- Mutable state of a `DistributedSegmentedDummyImageData` instance.
`current_dataset` is `none` for Python `None` and `some l` for a
materialized index list. -/
structure DummyState where
  config : DummyConfig
  total_size : Int
  seg_size : Int
  start_idx : Int
  end_idx : Int
  current_dataset : Option (List Int)
deriving DecidableEq

namespace Dummy

/-- Embedding of `DistributedSegmentedDummyImageData.__init__`. -/
def init (cfg : DummyConfig) : DummyState :=
  { config := cfg
    total_size := cfg.total_size
    seg_size := cfg.seg_size
    start_idx := 0
    end_idx := 0
    current_dataset := none }

/-- Embedding of `DistributedSegmentedDummyImageData.reset`: sets
`start_idx = 0`, `end_idx = 0`, `current_dataset = None`. -/
def reset (s : DummyState) : DummyState :=
  { s with start_idx := 0, end_idx := 0, current_dataset := none }

/-- Embedding of `DistributedSegmentedDummyImageData.calculate_end_idx`:
`min(self.start_idx + self.config.seg_size * self.config.dist_world_size,
self.config.total_size)`. -/
def calculate_end_idx (s : DummyState) : Int :=
  min (s.start_idx + s.config.seg_size * s.config.dist_world_size)
    s.config.total_size

/-- Embedding of `DistributedSegmentedDummyImageData.update_dataset_segment`:
`list(range(self.start_idx, self.end_idx))`. -/
def update_dataset_segment (s : DummyState) : List Int :=
  intRange s.start_idx s.end_idx

/-- The first half of `set_start_idx`, shared by one rank of a group:
store the new `start_idx` and recompute `end_idx`. -/
def rank_advance (s : DummyState) (start_idx : Int) : DummyState :=
  let s1 : DummyState := { s with start_idx := start_idx }
  { s1 with end_idx := calculate_end_idx s1 }

/-- Embedding of `DistributedSegmentedDummyImageData.set_start_idx` in
the lockstep view: every rank calls it with the same argument and the
same configuration, so the list each rank ends up holding (rank 0's own
computation, every other rank the broadcast copy of it) equals
`update_dataset_segment` of the advanced state.  If the materialized
list is empty the method calls `reset()` and returns
`requires_reset = True`. -/
def set_start_idx (s : DummyState) (start_idx : Int) : DummyState × Bool :=
  let s2 := rank_advance s start_idx
  let ds := update_dataset_segment s2
  let s3 : DummyState := { s2 with current_dataset := some ds }
  if ds.length = 0 then (reset s3, true) else (s3, false)

/-- Group-level embedding of `set_start_idx` for `world_size ≥ 2`: every
rank stores the new `start_idx` and recomputes its `end_idx`; rank 0 (the
head of the list) materializes `update_dataset_segment`, and
`dist.broadcast_object_list` replicates exactly that list to every rank;
each rank then applies the empty-segment reset check to the list it
received. -/
def group_advance (ss : List DummyState) (start_idx : Int) :
    List (DummyState × Bool) :=
  let ss1 := ss.map (fun s => rank_advance s start_idx)
  let v : List Int :=
    match ss1 with
    | [] => []
    | s0 :: _ => update_dataset_segment s0
  ss1.map (fun s =>
    let s2 : DummyState := { s with current_dataset := some v }
    if v.length = 0 then (reset s2, true) else (s2, false))

end Dummy

namespace Dummy

/-- Driver loop described by the coverage property: starting from a
cursor state, repeatedly call `set_start_idx(previous end_idx)` and
collect the materialized index list of each window, stopping as soon as
a call reports `requires_reset`.  The fuel bounds the recursion; any
fuel above the number of windows gives the full run. -/
def runSegments : Nat → DummyState → List (List Int)
  | 0, _ => []
  | fuel + 1, s =>
    let p := set_start_idx s s.end_idx
    if p.2 then [] else (p.1.current_dataset.getD []) :: runSegments fuel p.1

end Dummy

namespace IPC

/-- States of an `IPCDistributedSegmentedDataset` reachable from
construction by any sequence of `set_start_idx` (arbitrary integer
argument), `reset`, and `load_checkpoint_and_broadcast` (arbitrary
checkpoint contents).  `save_checkpoint` does not mutate the cursor, so
it contributes no transition. -/
inductive Reachable (cfg : IPCConfig) : IPCState → Prop where
  | init : Reachable cfg (IPC.init cfg)
  | advance (s : IPCState) (a : Int) :
      Reachable cfg s → Reachable cfg (IPC.set_start_idx s a)
  | reset_op (s : IPCState) :
      Reachable cfg s → Reachable cfg (IPC.reset s)
  | load (s : IPCState) (c : Option Checkpoint) :
      Reachable cfg s →
      Reachable cfg (IPC.load_checkpoint_and_broadcast s c).1

/-- Restricted reachability: like `Reachable`, but `set_start_idx`
arguments stay in `[0, total_size]` and loaded checkpoints carry an
`end_idx` in `[0, total_size]` and a non-negative
`micro_batch_size_per_rank`. -/
inductive ReachableR (cfg : IPCConfig) : IPCState → Prop where
  | init : ReachableR cfg (IPC.init cfg)
  | advance (s : IPCState) (a : Int) :
      0 ≤ a → a ≤ (cfg.full_dataset.length : Int) →
      ReachableR cfg s → ReachableR cfg (IPC.set_start_idx s a)
  | reset_op (s : IPCState) :
      ReachableR cfg s → ReachableR cfg (IPC.reset s)
  | load_none (s : IPCState) :
      ReachableR cfg s →
      ReachableR cfg (IPC.load_checkpoint_and_broadcast s none).1
  | load_some (s : IPCState) (c : Checkpoint) :
      0 ≤ c.end_idx → c.end_idx ≤ (cfg.full_dataset.length : Int) →
      0 ≤ c.micro_batch_size_per_rank →
      ReachableR cfg s →
      ReachableR cfg (IPC.load_checkpoint_and_broadcast s (some c)).1

/-- Inductive invariant carried through `ReachableR`. -/
def Inv (cfg : IPCConfig) (s : IPCState) : Prop :=
  0 ≤ s.start_idx ∧ s.start_idx ≤ s.end_idx ∧ s.end_idx ≤ s.total_size ∧
  s.total_size = (cfg.full_dataset.length : Int) ∧
  0 ≤ s.micro_batch_size_per_rank ∧ s.world_size = cfg.world_size

end IPC

/-- Default handle, for total list lookups. -/
instance : Inhabited Handle := ⟨⟨0, 0, 0, 0, 0⟩⟩

/-- Concrete handle with a distinguishing first field. -/
def handle (i : Int) : Handle := ⟨i, 0, 0, 0, 0⟩

/-- Concrete IPC configuration: 4 samples, `micro_batch_size_per_rank =
2`, `world_size = 2` (the checkpoint scenario of the spec). -/
def cfg4 : IPCConfig := ⟨[handle 0, handle 1, handle 2, handle 3], 2, 2⟩

/-- Degenerate IPC configuration: 3 samples and
`micro_batch_size_per_rank * world_size = 0`. -/
def cfg0 : IPCConfig := ⟨[handle 0, handle 1, handle 2], 0, 2⟩

/-- Concrete dummy configuration: `total_size = 10`, `seg_size = 2`,
`world_size = 2`, rank 0 (the coverage scenario of the spec). -/
def c10 : DummyConfig := ⟨1, 1, 1, 2, 10, 0, 2⟩

/-- Same configuration as `c10` for rank 1. -/
def c10r1 : DummyConfig := ⟨1, 1, 1, 2, 10, 1, 2⟩

/-- Dummy configuration with `total_size = 3`, `seg_size = 2`,
`world_size = 2`. -/
def c3 : DummyConfig := ⟨1, 1, 1, 2, 3, 0, 2⟩

/-- Rank-0 state under `c10`. -/
def d0 : DummyState := Dummy.init c10

/-- Rank-1 state under `c10r1`. -/
def d1 : DummyState := Dummy.init c10r1

/-!  Theorems.  -/

/-- Length of `intRange` is the clamped difference. -/
lemma intRange_length (s e : Int) : (intRange s e).length = (e - s).toNat := by
  simp [intRange]

/-- An integer range with no room is empty. -/
lemma intRange_eq_nil (s e : Int) (h : e ≤ s) : intRange s e = [] := by
  unfold intRange
  have h0 : (e - s).toNat = 0 := by omega
  rw [h0]
  rfl

/-- Adjacent integer ranges concatenate. -/
lemma intRange_append (s m e : Int) (h1 : s ≤ m) (h2 : m ≤ e) :
    intRange s m ++ intRange m e = intRange s e := by
  unfold intRange
  have ha : (0 : Int) ≤ m - s := by omega
  have hsum : (e - s).toNat = (m - s).toNat + (e - m).toNat := by omega
  rw [hsum, List.range_add, List.map_append, List.map_map]
  congr 1
  apply List.map_congr_left
  intro i _
  have hms : ((m - s).toNat : Int) = m - s := Int.toNat_of_nonneg ha
  simp only [Function.comp, Int.ofNat_eq_natCast]
  omega

/-- Starting anywhere in `[0, total]` with a positive product keeps the
computed boundary at or above the start.  Shared arithmetic core of the
boundary claims. -/
lemma start_le_min_boundary (start k total : Int) (hk : 0 < k)
    (hle : start ≤ total) : start ≤ min (start + k) total := by
  omega

/-- C5 counterexample: with `seg_size = 2`, `world_size = 2`,
`total_size = 3` (so `seg*world = 4 > 0`) and `start_idx = 5`, the
boundary computation returns `3`, which is strictly below the start, so
`boundary(start) >= start` fails for arbitrary integer starts. -/
theorem claim_C5_counterexample :
    0 < c3.seg_size * c3.dist_world_size ∧
    Dummy.calculate_end_idx (Dummy.rank_advance (Dummy.init c3) 5) = 3 ∧
    ¬ ((Dummy.rank_advance (Dummy.init c3) 5).start_idx ≤
        Dummy.calculate_end_idx (Dummy.rank_advance (Dummy.init c3) 5)) := by
  decide

/-- C5 (amended): for both cursor classes, `calculate_end_idx` returns
`min(start_idx + segmentSize * worldSize, totalSize)` for all integer
states; the lower bound `boundary(start) >= start` additionally needs
`start <= totalSize` (it fails for starts beyond the end of the
dataset). -/
theorem claim_C5_amended :
    (∀ s : DummyState,
      Dummy.calculate_end_idx s =
        min (s.start_idx + s.config.seg_size * s.config.dist_world_size)
          s.config.total_size ∧
      (0 < s.config.seg_size * s.config.dist_world_size →
        s.start_idx ≤ s.config.total_size →
        s.start_idx ≤ Dummy.calculate_end_idx s)) ∧
    (∀ t : IPCState,
      IPC.calculate_end_idx t =
        min (t.start_idx + t.micro_batch_size_per_rank * t.world_size)
          t.total_size ∧
      (0 < t.micro_batch_size_per_rank * t.world_size →
        t.start_idx ≤ t.total_size →
        t.start_idx ≤ IPC.calculate_end_idx t)) := by
  constructor
  · intro s
    exact ⟨rfl, fun hk hle => start_le_min_boundary _ _ _ hk hle⟩
  · intro t
    exact ⟨rfl, fun hk hle => start_le_min_boundary _ _ _ hk hle⟩

/-- C5 witness: the amended boundary bound at a concrete state
(`start_idx = 0 ≤ total_size = 10`, `seg*world = 4 > 0`). -/
theorem claim_C5_witness :
    (Dummy.init c10).start_idx ≤ Dummy.calculate_end_idx (Dummy.init c10) :=
  (claim_C5_amended.1 (Dummy.init c10)).2 (by decide) (by decide)

/-- Loading any concrete checkpoint record sets `start_idx` to the
record's `end_idx`, whichever branch the batch-size reconciliation
takes. -/
lemma load_some_start_idx (s : IPCState) (c : Checkpoint) :
    (IPC.load_checkpoint_and_broadcast s (some c)).1.start_idx =
      c.end_idx := by
  unfold IPC.load_checkpoint_and_broadcast
  dsimp only
  split
  · rfl
  · rfl

/-- C6 (confirmed): saving a checkpoint from any cursor state and
loading it into a freshly constructed cursor yields `start_idx` equal to
the saved `end_idx`; in particular, with 4 samples,
`micro_batch_size_per_rank = 2`, `world_size = 2` and a checkpoint saved
at `end_idx = 4`, the resumed cursor has `start_idx = 4`. -/
theorem claim_C6 :
    (∀ (cfg : IPCConfig) (s : IPCState),
      (IPC.load_checkpoint_and_broadcast (IPC.init cfg)
          (some (IPC.save_checkpoint s))).1.start_idx = s.end_idx) ∧
    (IPC.load_checkpoint_and_broadcast (IPC.init cfg4)
        (some (IPC.save_checkpoint
          (IPC.set_start_idx (IPC.init cfg4) 4)))).1.start_idx = 4 := by
  constructor
  · intro cfg s
    exact load_some_start_idx (IPC.init cfg) (IPC.save_checkpoint s)
  · decide

/-- C7 (confirmed): loading a checkpoint whose
`micro_batch_size_per_rank` differs from the live value never raises
(the embedded loader is a total function), emits the warning (the
returned flag), and adopts the checkpoint's value. -/
theorem claim_C7 (s : IPCState) (c : Checkpoint)
    (h : c.micro_batch_size_per_rank ≠ s.micro_batch_size_per_rank) :
    (IPC.load_checkpoint_and_broadcast s (some c)).1.micro_batch_size_per_rank
        = c.micro_batch_size_per_rank ∧
    (IPC.load_checkpoint_and_broadcast s (some c)).2 = true := by
  unfold IPC.load_checkpoint_and_broadcast
  dsimp only
  have hm : (IPC.set_start_idx s c.end_idx).micro_batch_size_per_rank =
      s.micro_batch_size_per_rank := rfl
  rw [if_neg (by rw [hm]; exact h)]
  exact ⟨rfl, rfl⟩

/-- C7 witness: a checkpoint with `micro_batch_size_per_rank = 3` loaded
into a cursor configured with `2` adopts `3` and warns. -/
theorem claim_C7_witness :
    (IPC.load_checkpoint_and_broadcast (IPC.init cfg4)
        (some ⟨4, 3⟩)).1.micro_batch_size_per_rank = 3 ∧
    (IPC.load_checkpoint_and_broadcast (IPC.init cfg4)
        (some ⟨4, 3⟩)).2 = true :=
  claim_C7 (IPC.init cfg4) ⟨4, 3⟩ (by decide)

/-- C9 counterexample: the constructor performs no validation.  With 3
samples and `micro_batch_size_per_rank * world_size = 0`, construction
succeeds (the embedded `init` is a total function and returns the state
shown), and the zero product is silently clamped so that `end_idx`
equals `start_idx` — exactly what the claim says never happens. -/
theorem claim_C9_counterexample :
    cfg0.micro_batch_size_per_rank * cfg0.world_size = 0 ∧
    IPC.init cfg0 =
      { full_dataset := [handle 0, handle 1, handle 2]
        micro_batch_size_per_rank := 0
        world_size := 2
        total_size := 3
        start_idx := 0
        end_idx := 0 } ∧
    (IPC.init cfg0).end_idx = (IPC.init cfg0).start_idx := by
  decide

/-- C9 (amended): construction accepts every configuration without any
error; whenever `micro_batch_size_per_rank * world_size = 0` the
constructed cursor has `start_idx = end_idx = 0`, i.e. the degenerate
product is silently clamped rather than rejected. -/
theorem claim_C9_amended (cfg : IPCConfig)
    (h : cfg.micro_batch_size_per_rank * cfg.world_size = 0) :
    (IPC.init cfg).start_idx = 0 ∧ (IPC.init cfg).end_idx = 0 := by
  refine ⟨rfl, ?_⟩
  unfold IPC.init IPC.calculate_end_idx
  dsimp only
  omega

/-- C9 witness: the amended statement at the degenerate configuration
`cfg0`. -/
theorem claim_C9_witness :
    (IPC.init cfg0).start_idx = 0 ∧ (IPC.init cfg0).end_idx = 0 :=
  claim_C9_amended cfg0 (by decide)

/-- C10 counterexample: with `seg_size = 2`, `world_size = 2`,
`total_size = 10`, `reset()` leaves `end_idx = 0`, while `boundary(0) =
min(seg*world, total) = 4`, so `reset` does not set `end` to
`boundary(0)`. -/
theorem claim_C10_counterexample :
    (Dummy.reset (Dummy.init c10)).end_idx = 0 ∧
    Dummy.calculate_end_idx (Dummy.reset (Dummy.init c10)) = 4 ∧
    (Dummy.reset (Dummy.init c10)).end_idx ≠
      Dummy.calculate_end_idx (Dummy.reset (Dummy.init c10)) := by
  decide

/-- C10 (amended): `reset()` leaves the cursor with `start_idx = 0`,
`end_idx = 0` (not `boundary(0)`; the boundary is only recomputed by the
next `set_start_idx`) and a cleared index set, and `reset` is
idempotent: calling it twice yields exactly the state of calling it
once. -/
theorem claim_C10_amended (s : DummyState) :
    (Dummy.reset s).start_idx = 0 ∧ (Dummy.reset s).end_idx = 0 ∧
    (Dummy.reset s).current_dataset = none ∧
    Dummy.reset (Dummy.reset s) = Dummy.reset s :=
  ⟨rfl, rfl, rfl, rfl⟩

/-- Advancing the dummy cursor to its configured `total_size` always
materializes an empty segment. -/
lemma dummy_advance_total_nil (s : DummyState) :
    Dummy.update_dataset_segment
      (Dummy.rank_advance s s.config.total_size) = [] := by
  unfold Dummy.update_dataset_segment Dummy.rank_advance
    Dummy.calculate_end_idx
  dsimp only
  apply intRange_eq_nil
  omega

/-- C3 counterexample: on the IPC cursor with 4 samples, calling
`set_start_idx(total_size)` leaves `start_idx = total_size = 4`, not
`0`: the window has length 0 but no internal reset happens (and
`set_start_idx` returns no signal at all). -/
theorem claim_C3_counterexample :
    IPC.segmentLength
      (IPC.set_start_idx (IPC.init cfg4) (IPC.init cfg4).total_size) = 0 ∧
    (IPC.set_start_idx (IPC.init cfg4)
      (IPC.init cfg4).total_size).start_idx = 4 ∧
    (4 : Int) ≠ 0 := by
  decide

/-- C3 (amended): on the dummy cursor, `set_start_idx(total_size)`
materializes a length-0 window, performs the internal reset (so
`start_idx` and `end_idx` become 0) and returns `requires_reset = true`;
the IPC cursor's `set_start_idx(total_size)` also yields a length-0
window (given a non-negative batch product) but performs no reset —
`start_idx` stays at `total_size` — and returns no signal. -/
theorem claim_C3_amended :
    (∀ s : DummyState,
      Dummy.update_dataset_segment
        (Dummy.rank_advance s s.config.total_size) = [] ∧
      (Dummy.set_start_idx s s.config.total_size).2 = true ∧
      (Dummy.set_start_idx s s.config.total_size).1.start_idx = 0 ∧
      (Dummy.set_start_idx s s.config.total_size).1.end_idx = 0) ∧
    (∀ t : IPCState, 0 ≤ t.micro_batch_size_per_rank * t.world_size →
      IPC.segmentLength (IPC.set_start_idx t t.total_size) = 0 ∧
      (IPC.set_start_idx t t.total_size).start_idx = t.total_size) := by
  constructor
  · intro s
    have hds := dummy_advance_total_nil s
    refine ⟨hds, ?_, ?_, ?_⟩ <;>
      simp only [Dummy.set_start_idx, hds, List.length_nil, if_pos] <;> rfl
  · intro t hk
    constructor
    · unfold IPC.segmentLength IPC.set_start_idx IPC.calculate_end_idx
      dsimp only
      omega
    · rfl

/-- C3 witness: the amended IPC half at the concrete 4-sample cursor. -/
theorem claim_C3_witness :
    IPC.segmentLength
      (IPC.set_start_idx (IPC.init cfg4) (IPC.init cfg4).total_size) = 0 ∧
    (IPC.set_start_idx (IPC.init cfg4)
      (IPC.init cfg4).total_size).start_idx = (IPC.init cfg4).total_size :=
  claim_C3_amended.2 (IPC.init cfg4) (by decide)

/-- C2 counterexample: `set_start_idx` accepts arbitrary integers, and
the state reached from construction (4 samples,
`micro_batch_size_per_rank = 2`, `world_size = 2`) by
`set_start_idx(10)` has `start_idx = 10 > end_idx = 4`: the claimed
invariant `start_idx <= end_idx` fails on a reachable state. -/
theorem claim_C2_counterexample :
    IPC.Reachable cfg4 (IPC.set_start_idx (IPC.init cfg4) 10) ∧
    ¬ ((IPC.set_start_idx (IPC.init cfg4) 10).start_idx ≤
        (IPC.set_start_idx (IPC.init cfg4) 10).end_idx) :=
  ⟨.advance _ 10 .init, by decide⟩

/-- The inductive invariant holds on every restricted-reachable
state. -/
lemma reachableR_inv (cfg : IPCConfig)
    (hm : 0 ≤ cfg.micro_batch_size_per_rank) (hw : 0 ≤ cfg.world_size)
    (s : IPCState) (h : IPC.ReachableR cfg s) : IPC.Inv cfg s := by
  induction h with
  | init =>
    have hk : 0 ≤ cfg.micro_batch_size_per_rank * cfg.world_size :=
      mul_nonneg hm hw
    unfold IPC.Inv IPC.init IPC.calculate_end_idx
    dsimp only
    have hlen : (0 : Int) ≤ (cfg.full_dataset.length : Int) :=
      Int.natCast_nonneg _
    omega
  | advance s a ha1 ha2 _ ih =>
    obtain ⟨h1, h2, h3, h4, h5, h6⟩ := ih
    have hk : 0 ≤ s.micro_batch_size_per_rank * s.world_size :=
      mul_nonneg h5 (h6 ▸ hw)
    unfold IPC.Inv IPC.set_start_idx IPC.calculate_end_idx
    dsimp only
    omega
  | reset_op s _ ih =>
    obtain ⟨h1, h2, h3, h4, h5, h6⟩ := ih
    unfold IPC.Inv IPC.reset
    dsimp only
    omega
  | load_none s _ ih =>
    exact ih
  | load_some s c hc1 hc2 hc3 _ ih =>
    obtain ⟨h1, h2, h3, h4, h5, h6⟩ := ih
    have hk : 0 ≤ s.micro_batch_size_per_rank * s.world_size :=
      mul_nonneg h5 (h6 ▸ hw)
    unfold IPC.load_checkpoint_and_broadcast
    dsimp only
    split
    · unfold IPC.Inv IPC.set_start_idx IPC.calculate_end_idx
      dsimp only
      omega
    · unfold IPC.Inv IPC.set_start_idx IPC.calculate_end_idx
      dsimp only
      omega

/-- C2 (amended): the invariant `0 <= start_idx <= end_idx <=
total_size` holds on every state reachable from construction by
`set_start_idx` with arguments in `[0, total_size]`, `reset`,
`save_checkpoint`, and `load_checkpoint_and_broadcast` of checkpoints
with `end_idx` in `[0, total_size]` and non-negative batch size (for
non-negative configured `micro_batch_size_per_rank` and `world_size`);
it fails for arbitrary integer arguments.  `end_idx` equals
`min(start_idx + micro_batch_size_per_rank * world_size, total_size)`
with respect to the batch size current at each `set_start_idx` — not,
in general, after a reset or after a checkpoint load that changes the
batch size. -/
theorem claim_C2_amended :
    (∀ (cfg : IPCConfig) (s : IPCState),
      0 ≤ cfg.micro_batch_size_per_rank → 0 ≤ cfg.world_size →
      IPC.ReachableR cfg s →
      0 ≤ s.start_idx ∧ s.start_idx ≤ s.end_idx ∧
        s.end_idx ≤ s.total_size) ∧
    (∀ (t : IPCState) (a : Int),
      (IPC.set_start_idx t a).end_idx =
        min (a + t.micro_batch_size_per_rank * t.world_size)
          t.total_size) := by
  constructor
  · intro cfg s hm hw h
    obtain ⟨h1, h2, h3, _, _, _⟩ := reachableR_inv cfg hm hw s h
    exact ⟨h1, h2, h3⟩
  · intro t a
    rfl

/-- C2 witness: the amended invariant on a restricted-reachable state of
the 4-sample cursor, reached by advancing to index 2. -/
theorem claim_C2_witness :
    0 ≤ (IPC.set_start_idx (IPC.init cfg4) 2).start_idx ∧
    (IPC.set_start_idx (IPC.init cfg4) 2).start_idx ≤
      (IPC.set_start_idx (IPC.init cfg4) 2).end_idx ∧
    (IPC.set_start_idx (IPC.init cfg4) 2).end_idx ≤
      (IPC.set_start_idx (IPC.init cfg4) 2).total_size :=
  claim_C2_amended.1 cfg4 (IPC.set_start_idx (IPC.init cfg4) 2)
    (by decide) (by decide)
    (.advance _ 2 (by decide) (by decide) .init)

/-- C8 counterexample: on the fresh 4-sample cursor (window `[0, 4)`,
length 4), the local index `-1` lies outside `[0, length())`, yet
`__getitem__` does not fail: the guard only checks the upper bound, and
Python's negative indexing resolves `full_dataset[-1]`, the last
handle. -/
theorem claim_C8_counterexample :
    IPC.getItem (IPC.init cfg4) (-1) = .ok (handle 3) ∧
    ¬ (0 ≤ (-1 : Int) ∧ (-1 : Int) < IPC.segmentLength (IPC.init cfg4)) := by
  decide

/-- C8 (amended): for a state with `0 <= start_idx` and `end_idx <=
len(full_dataset)` and a non-negative local index,  `__getitem__` raises
the explicit segment index error exactly when `idx >= length()`, and for
`idx` inside the window it resolves the handle at global position
`start_idx + idx` of the full dataset; a negative `idx`, however, is not
rejected — it falls through the guard to Python negative indexing on
`full_dataset` (see the counterexample). -/
theorem claim_C8_amended (s : IPCState) (idx : Int)
    (hs : 0 ≤ s.start_idx)
    (he : s.end_idx ≤ (s.full_dataset.length : Int)) (hi : 0 ≤ idx) :
    (IPC.segmentLength s ≤ idx →
      IPC.getItem s idx = .error PyErr.segmentIndexOutOfRange) ∧
    (idx < IPC.segmentLength s →
      IPC.getItem s idx =
        .ok (s.full_dataset.getD (s.start_idx + idx).toNat default)) := by
  constructor
  · intro hlen
    unfold IPC.segmentLength at hlen
    unfold IPC.getItem
    rw [if_pos hlen]
  · intro hlt
    unfold IPC.segmentLength at hlt
    have hcond : ¬ (s.end_idx - s.start_idx ≤ idx) := by omega
    have hneg : ¬ (s.start_idx + idx < 0) := by omega
    have hnat : (s.start_idx + idx).toNat < s.full_dataset.length := by
      omega
    unfold IPC.getItem pyGet
    rw [if_neg hcond]
    dsimp only
    simp only [if_neg hneg]
    rw [dif_pos ⟨by omega, hnat⟩, List.getD_eq_getElem s.full_dataset default hnat]
    rfl

/-- C8 witness: the amended in-window case at local index 1 of the fresh
4-sample cursor resolves `full_dataset[0 + 1]`. -/
theorem claim_C8_witness :
    IPC.getItem (IPC.init cfg4) 1 =
      .ok ((IPC.init cfg4).full_dataset.getD
        ((IPC.init cfg4).start_idx + 1).toNat default) :=
  (claim_C8_amended (IPC.init cfg4) 1 (by decide) (by decide)
    (by decide)).2 (by decide)

/-- C4 counterexample: two ranks configured with `total_size = 10`
advancing to `start_idx = 10` (the exhausted window): the broadcast list
is empty, every rank resets, and each rank's `current_dataset` is `None`
— not the materialized list `range(start_idx, end_idx)` (which is `[]`
for the post-reset window `[0, 0)`), so "the materialized index set
equals `range(start_idx, end_idx)`" fails for empty advances. -/
theorem claim_C4_counterexample :
    (Dummy.group_advance [d0, d1] 10).map
        (fun p => (p.1.current_dataset, p.2)) =
      [(none, true), (none, true)] ∧
    (Dummy.group_advance [d0, d1] 10).map
        (fun p => some (intRange p.1.start_idx p.1.end_idx)) =
      [some [], some []] ∧
    (none : Option (List Int)) ≠ some [] := by
  decide

/-- C4 (amended): on a group of at least two ranks sharing the cursor
configuration, any advance whose window is non-empty leaves every rank
with `current_dataset` equal to the list `range(start_idx, end_idx)`
materialized by rank 0 and replicated by the broadcast (never recomputed
locally: in `group_advance` the non-head ranks only receive the head's
list), and no rank resets; moreover, after any advance whatsoever —
empty windows included — all ranks hold identical `current_dataset`
values. -/
theorem claim_C4_amended :
    (∀ (ss : List DummyState) (a seg total ws : Int),
      2 ≤ ss.length →
      (∀ s ∈ ss, s.config.seg_size = seg ∧ s.config.total_size = total ∧
        s.config.dist_world_size = ws) →
      a < min (a + seg * ws) total →
      (Dummy.group_advance ss a).map (fun p => (p.1.current_dataset, p.2))
        = ss.map
          (fun _ => (some (intRange a (min (a + seg * ws) total)), false))) ∧
    (∀ (ss : List DummyState) (a : Int) (p q : DummyState × Bool),
      p ∈ Dummy.group_advance ss a → q ∈ Dummy.group_advance ss a →
      p.1.current_dataset = q.1.current_dataset) := by
  constructor
  · intro ss a seg total ws hlen hcfg hw
    match ss with
    | [] => simp at hlen
    | s0 :: tl =>
      obtain ⟨h1, h2, h3⟩ := hcfg s0 (List.mem_cons_self s0 tl)
      have hv : Dummy.update_dataset_segment (Dummy.rank_advance s0 a) =
          intRange a (min (a + seg * ws) total) := by
        unfold Dummy.update_dataset_segment Dummy.rank_advance
          Dummy.calculate_end_idx
        dsimp only
        rw [h1, h2, h3]
      have hlen0 :
          ¬ ((intRange a (min (a + seg * ws) total)).length = 0) := by
        rw [intRange_length]
        omega
      unfold Dummy.group_advance
      simp only [List.map_cons, hv, if_neg hlen0, List.map_map]
      rfl
  · intro ss a p q hp hq
    unfold Dummy.group_advance at hp hq
    obtain ⟨x, hx, hxe⟩ := List.mem_map.1 hp
    obtain ⟨y, hy, hye⟩ := List.mem_map.1 hq
    rw [← hxe, ← hye]
    by_cases hv0 :
        (match ss.map (fun s => Dummy.rank_advance s a) with
          | [] => ([] : List Int)
          | s0 :: _ => Dummy.update_dataset_segment s0).length = 0
    · simp only [if_pos hv0]
      rfl
    · simp only [if_neg hv0]

/-- C4 witness: two ranks under the shared `total_size = 10`,
`seg_size = 2`, `world_size = 2` configuration advancing to 0 both hold
exactly `range(0, 4)` and do not reset. -/
theorem claim_C4_witness :
    (Dummy.group_advance [d0, d1] 0).map
        (fun p => (p.1.current_dataset, p.2)) =
      [d0, d1].map
        (fun _ => (some (intRange 0 (min (0 + 2 * 2) 10)), false)) :=
  claim_C4_amended.1 [d0, d1] 0 2 10 2 (by decide) (by decide) (by decide)

/-- Core of the coverage property: with a positive segment product,
running the advance loop from any state whose `end_idx` lies in
`[0, total_size]` (with enough fuel) concatenates to exactly the indices
`[end_idx, total_size)`. -/
lemma runSegments_join (cfg : DummyConfig)
    (hk : 0 < cfg.seg_size * cfg.dist_world_size) :
    ∀ (fuel : Nat) (s : DummyState), s.config = cfg →
      0 ≤ s.end_idx → s.end_idx ≤ cfg.total_size →
      (cfg.total_size - s.end_idx).toNat < fuel →
      (Dummy.runSegments fuel s).flatten =
        intRange s.end_idx cfg.total_size := by
  intro fuel
  induction fuel with
  | zero =>
    intro s _ _ _ hf
    exact absurd hf (by omega)
  | succ f ih =>
    intro s hcfg h0 hT hf
    by_cases hlt : s.end_idx < cfg.total_size
    · have hend : (Dummy.rank_advance s s.end_idx).end_idx =
          min (s.end_idx + cfg.seg_size * cfg.dist_world_size)
            cfg.total_size := by
        unfold Dummy.rank_advance Dummy.calculate_end_idx
        dsimp only
        rw [hcfg]
      set e := s.end_idx with he
      set e' := min (e + cfg.seg_size * cfg.dist_world_size)
        cfg.total_size with he'
      have helt : e < e' := by omega
      have heT' : e' ≤ cfg.total_size := by omega
      have hds : Dummy.update_dataset_segment (Dummy.rank_advance s e) =
          intRange e e' := by
        unfold Dummy.update_dataset_segment
        rw [hend]
        rfl
      have hlen0 : ¬ ((intRange e e').length = 0) := by
        rw [intRange_length]
        omega
      have hssi : Dummy.set_start_idx s e =
          ({ Dummy.rank_advance s e with
              current_dataset := some (intRange e e') }, false) := by
        simp only [Dummy.set_start_idx, hds, if_neg hlen0]
      have hstep : Dummy.runSegments (f + 1) s =
          intRange e e' :: Dummy.runSegments f
            { Dummy.rank_advance s e with
                current_dataset := some (intRange e e') } := by
        simp only [Dummy.runSegments, hssi]
        simp
      rw [hstep, List.flatten_cons]
      rw [ih { Dummy.rank_advance s e with
            current_dataset := some (intRange e e') }
          hcfg (by rw [hend]; omega) (by rw [hend]; omega)
          (by rw [hend]; omega)]
      rw [hend]
      exact intRange_append e e' cfg.total_size (le_of_lt helt) heT'
    · have hds : Dummy.update_dataset_segment
          (Dummy.rank_advance s s.end_idx) = [] := by
        unfold Dummy.update_dataset_segment Dummy.rank_advance
          Dummy.calculate_end_idx
        dsimp only
        rw [hcfg]
        apply intRange_eq_nil
        omega
      have hb : (Dummy.set_start_idx s s.end_idx).2 = true := by
        simp only [Dummy.set_start_idx, hds]
        simp
      have hstep : Dummy.runSegments (f + 1) s = [] := by
        simp only [Dummy.runSegments]
        rw [hb]
        simp
      rw [hstep]
      rw [intRange_eq_nil s.end_idx cfg.total_size (by omega)]
      rfl

/-- C1 (confirmed): for every configuration with a positive
`seg_size * world_size` product and positive `total_size`, starting at
`start_idx = 0` and repeatedly calling `set_start_idx(previous
end_idx)` until the reset fires visits every global index in
`[0, total_size)` exactly once, in increasing order, with no gaps or
overlaps (the concatenation of the materialized windows is exactly
`range(0, total_size)`); in particular, for `total_size = 10`,
`seg_size = 2`, `world_size = 2` the windows are `[0, 4)`, `[4, 8)`,
`[8, 10)`. -/
theorem claim_C1 :
    (∀ cfg : DummyConfig,
      0 < cfg.seg_size * cfg.dist_world_size → 0 < cfg.total_size →
      (Dummy.runSegments (cfg.total_size.toNat + 1)
        (Dummy.init cfg)).flatten = intRange 0 cfg.total_size) ∧
    Dummy.runSegments (c10.total_size.toNat + 1) (Dummy.init c10) =
      [intRange 0 4, intRange 4 8, intRange 8 10] := by
  constructor
  · intro cfg hk hT
    exact runSegments_join cfg hk (cfg.total_size.toNat + 1)
      (Dummy.init cfg) rfl (le_refl 0)
      (show (0 : Int) ≤ cfg.total_size by omega)
      (show (cfg.total_size - 0).toNat < cfg.total_size.toNat + 1 by omega)
  · decide

/-- C1 witness: the coverage theorem at `total_size = 10`,
`seg_size = 2`, `world_size = 2`. -/
theorem claim_C1_witness :
    (Dummy.runSegments (c10.total_size.toNat + 1)
      (Dummy.init c10)).flatten = intRange 0 c10.total_size :=
  claim_C1.1 c10 (by decide) (by decide)

end MinPf
